import Mathlib

/-!
# Verification of the remirror extension-manager core

A shallow embedding of the remirror `RemirrorManager` lifecycle state machine
(`packages/@remirror/core/src/manager/remirror-manager.ts`) and of the
document-creation and selection helpers from `@remirror/core-utils`
(`src/unnamed/part_005`), together with proofs settling the frozen claims
about the natural-language specification.

Conventions of the embedding:

* JavaScript exceptions are modelled with `Except JsError`.
* Handler invocations, event emissions and external side effects (tearing
  down the view, destroying plugin state) are recorded as a trace:
  `List Event`.
* The external ProseMirror engine (nodes, states, views, selections) is out
  of scope for the repository; it is modelled by minimal structures whose
  behaviour follows the contract the specification states for it.
-/

/-- The lifecycle phases of the manager, from `@remirror/core-constants`
(not in the source tree). Modelled from the spec: a strictly increasing
enum `None → Create → EditorView → Runtime → Destroy`, compared numerically
as a TypeScript numeric enum. -/
inductive ManagerPhase where
  | none
  | create
  | editorView
  | runtime
  | destroy
deriving DecidableEq, Repr

/-- The numeric value of a phase, used for the `<=` / `>=` comparisons the
manager performs on `this.#phase`. -/
def ManagerPhase.toNat : ManagerPhase → Nat
  | .none => 0
  | .create => 1
  | .editorView => 2
  | .runtime => 3
  | .destroy => 4

/-- Error values thrown by the embedded code: `RemirrorError` codes from
`ErrorConstant` (in `@remirror/core-constants`, not in the source tree, but
named at each `invariant` call site in the manager source), the `RangeError`
thrown by `doc.resolve`, parse failures thrown by `schema.nodeFromJSON`,
the code-less `RemirrorError` for unrecognized content, and the TypeScript
runtime `TypeError` from reading a property of `undefined`. -/
inductive JsError where
  | newEditorManager
  | managerPhaseError
  | invalidManagerExtension
  | rangeError
  | schemaParse (msg : String)
  | unrecognizedContent
  | typeError
deriving DecidableEq, Repr

/-- A ProseMirror document node, modelled shallowly: `nodeId` distinguishes
nodes structurally (two nodes are structurally equal exactly when they are
equal in this model) and `contentSize` is `node.content.size`, so that
`node.nodeSize = contentSize + 2` for the top-level document node. The
engine itself is external to the repository. -/
structure PMNode where
  nodeId : Nat
  contentSize : Nat
deriving DecidableEq, Repr

/-- `node.nodeSize` of a document node: content size plus the two boundary
tokens, per the external engine's documented contract. -/
def PMNode.nodeSize (n : PMNode) : Nat :=
  n.contentSize + 2

/-- A resolved position inside a document. -/
structure ResolvedPos where
  pos : Int
deriving DecidableEq, Repr

/-- Modelled from the spec: the external engine's `doc.resolve(pos)`, which
throws a `RangeError` unless `0 <= pos <= doc.content.size`
(= `doc.nodeSize - 2`). -/
def PMNode.resolve (doc : PMNode) (pos : Int) : Except JsError ResolvedPos :=
  if 0 ≤ pos ∧ pos ≤ (doc.contentSize : Int) then .ok ⟨pos⟩ else .error .rangeError

/-- A text selection of the external engine, identified by its anchor and
head positions. -/
structure TextSelection where
  anchor : Int
  head : Int
deriving DecidableEq, Repr

/-- Modelled from the spec: `TextSelection.near(resolvedPos)` of the external
engine returns a text selection at (or near) the resolved position; the
position of a `ResolvedPos` is always a valid document position. -/
def TextSelection.near (r : ResolvedPos) : TextSelection :=
  ⟨r.pos, r.pos⟩

/-- Modelled from the spec: `TextSelection.create(doc, anchor, head)` of the
external engine resolves both positions in the document (throwing the
`RangeError` of `resolve` when out of range) and returns the selection. -/
def TextSelection.create (doc : PMNode) (anchor head : Int) :
    Except JsError TextSelection := do
  let _ ← doc.resolve anchor
  let _ ← doc.resolve head
  .ok ⟨anchor, head⟩

/-- Modelled from the spec: the `clamp({ min, max, value })` helper of
`@remirror/core-helpers` (not in the source tree), restricting a value to
the closed interval `[min, max]`. -/
def clamp (min max value : Int) : Int :=
  if value < min then min else if value > max then max else value

/-- The `PrimitiveSelection` union from `@remirror/core-types`: an existing
`Selection` object, the strings "start" and "end", a single numeric
position, or a `{ from, to }` pair. -/
inductive PrimitiveSelection where
  | existing (s : TextSelection)
  | docStart
  | docEnd
  | pos (n : Int)
  | fromTo (f t : Int)
deriving DecidableEq, Repr

/-- `getTextSelection(selection, doc)` from `@remirror/core-utils`
(`src/unnamed/part_005`, lines 816–849): resolves a primitive selection
against a document, clamping numeric positions into
`[0, doc.nodeSize - 2]`. -/
def getTextSelection (selection : PrimitiveSelection) (doc : PMNode) :
    Except JsError TextSelection :=
  let max : Int := (doc.nodeSize : Int) - 2
  let min : Int := 0
  let clampToDocument : Int → Int := fun value => clamp min max value
  match selection with
  | .existing s => .ok s
  | .docStart => TextSelection.near <$> doc.resolve (clampToDocument min)
  | .docEnd => TextSelection.near <$> doc.resolve (clampToDocument max)
  | .pos n => TextSelection.near <$> doc.resolve (clampToDocument n)
  | .fromTo f t =>
      let start := clampToDocument f
      let stop := clampToDocument t
      TextSelection.create doc start stop

/-! ## Document creation (`createDocumentNode` and friends, `src/unnamed/part_005`) -/

/-- A `RemirrorJSON` object, modelled shallowly: its `type` string and an
optional `content` array, whose children are represented by their type
names only (no claim inspects deeper structure). -/
structure RemirrorJSON where
  type : String
  content : Option (List String)
deriving DecidableEq, Repr

/-- `isRemirrorJSON(value)` (`src/unnamed/part_005`, lines 787–789): the
value is an object with `type === 'doc'` and an array `content`. -/
def isRemirrorJSON (value : RemirrorJSON) : Bool :=
  value.type == "doc" && value.content.isSome

/-- `EMPTY_NODE` from `@remirror/core-constants` (not in the source tree).
Modelled from the spec: the built-in fallback document with no content,
`{ type: 'doc', content: [] }`. -/
def EMPTY_NODE : RemirrorJSON :=
  ⟨"doc", some []⟩

/-- `EMPTY_PARAGRAPH_NODE` from `@remirror/core-constants` (not in the
source tree). Modelled from the spec: the built-in fallback document holding
a single empty paragraph, `{ type: 'doc', content: [{ type: 'paragraph' }] }`. -/
def EMPTY_PARAGRAPH_NODE : RemirrorJSON :=
  ⟨"doc", some ["paragraph"]⟩

/-- The document schema, as far as the embedded code consults it:
`schema.nodes.doc.spec.content` (an optional content expression string) and
`schema.nodeFromJSON` (which throws on JSON the schema cannot parse — the
external engine's behaviour). -/
structure EditorSchema where
  docContentSpec : Option String
  nodeFromJSON : RemirrorJSON → Except JsError PMNode

/-- The `RemirrorContentType` union from `@remirror/core-types`: a
ProseMirror node, an object in `RemirrorJSON` shape, a string, or any other
value (such as an `EditorState` or an unrecognized object), tagged to keep
distinct inputs distinct. -/
inductive RemirrorContentType where
  | node (n : PMNode)
  | json (j : RemirrorJSON)
  | str (s : String)
  | other (tag : Nat)
deriving Repr

/-- The `Fallback` union (`src/unnamed/part_005`, line 852): a
`RemirrorJSON` object or a ProseMirror node. -/
inductive Fallback where
  | json (j : RemirrorJSON)
  | node (n : PMNode)
deriving Repr

/-- The `onError` parameter: a plain `Fallback` value or a
`CreateDocumentErrorHandler` function producing one from the optional
error (`src/unnamed/part_005`, lines 851–852). -/
inductive OnError where
  | fallback (f : Fallback)
  | handler (h : Option JsError → Fallback)

/-- `createFallback(fallback, schema)` (`src/unnamed/part_005`, lines
882–884): a node is returned as is, JSON is parsed through the schema
(exceptions from `nodeFromJSON` propagate — this call is not wrapped in a
try/catch). -/
def createFallback (fallback : Fallback) (schema : EditorSchema) :
    Except JsError PMNode :=
  match fallback with
  | .node n => .ok n
  | .json j => schema.nodeFromJSON j

/-- `createDocumentErrorHandler(parameter)` (`src/unnamed/part_005`, lines
872–880): apply the handler function to the error when `onError` is a
function, otherwise use the fallback value directly. -/
def createDocumentErrorHandler (onError : OnError) (schema : EditorSchema)
    (error : Option JsError) : Except JsError PMNode :=
  match onError with
  | .handler h => createFallback (h error) schema
  | .fallback f => createFallback f schema

/-- The parameter record of `createDocumentNode` (`src/unnamed/part_005`,
lines 791–811): content, schema, an optional custom DOM document (opaque
here), an optional string handler and an optional `onError` fallback.
The `selection` member of the record is not consulted by
`createDocumentNode` itself and is omitted. -/
structure CreateDocumentNodeParameter where
  content : RemirrorContentType
  schema : EditorSchema
  doc : Option Nat
  stringHandler : Option (Option Nat → String → EditorSchema → PMNode)
  onError : Option OnError

/-- `createDocumentNode(parameter)` (`src/unnamed/part_005`, lines
893–922), including the operator precedence of the source line

`parameter.onError ?? schema.nodes.doc.spec.content?.startsWith('block') ? ... : ...`

which parses as `(parameter.onError ?? startsWithBlock) ? ... : ...`: the
nullish coalescing binds tighter than the conditional, so whenever a caller
supplies `onError` the condition is the (truthy) supplied value and the
handler used is `() => EMPTY_PARAGRAPH_NODE`. -/
def createDocumentNode (p : CreateDocumentNodeParameter) :
    Except JsError PMNode :=
  let condition : Bool :=
    match p.onError with
    | some _ => true
    | none =>
        match p.schema.docContentSpec with
        | some c => c.startsWith "block"
        | none => false
  let onError : OnError :=
    if condition then .handler fun _ => .json EMPTY_PARAGRAPH_NODE
    else .handler fun _ => .json EMPTY_NODE
  match p.content with
  | .node n => .ok n
  | .json j =>
      if isRemirrorJSON j then
        match p.schema.nodeFromJSON j with
        | .ok n => .ok n
        | .error e => createDocumentErrorHandler onError p.schema (some e)
      else
        createDocumentErrorHandler onError p.schema (some .unrecognizedContent)
  | .str s =>
      match p.stringHandler with
      | some handler => .ok (handler p.doc s p.schema)
      | none => createDocumentErrorHandler onError p.schema (some .unrecognizedContent)
  | .other _ => createDocumentErrorHandler onError p.schema (some .unrecognizedContent)

/-! ## The manager state machine (`remirror-manager.ts`) -/

/-- A plugin of the external engine, as far as `destroy()` consults it:
`plugin.getState(state)?.destroy?.()` runs exactly when the plugin has a
per-state value with a `destroy` method. -/
structure Plugin where
  pluginId : Nat
  hasDestroyableState : Bool
deriving DecidableEq, Repr

/-- An immutable editor state of the external engine: the document, the
current selection and the configured plugins. -/
structure EditorState where
  doc : PMNode
  selection : Option TextSelection
  plugins : List Plugin
deriving DecidableEq, Repr

/-- Modelled from the spec: the external engine's
`EditorState.create({ schema, doc, plugins })` produces a state holding the
given document and plugins, with the default (unset) selection. -/
def EditorState.create (_schema : EditorSchema) (doc : PMNode)
    (plugins : List Plugin) : EditorState :=
  { doc := doc, selection := Option.none, plugins := plugins }

/-- Modelled from the spec: dispatching a transaction that only sets the
selection (`state.tr.setSelection(sel)` followed by
`state.applyTransaction(tr).state`) yields a state with the same document
and plugins and the new selection. -/
def EditorState.applySetSelection (state : EditorState) (sel : TextSelection) :
    EditorState :=
  { state with selection := some sel }

/-- An editor view of the external engine; `view.state` is its current
state, replaced by `view.updateState`. -/
structure EditorView where
  state : EditorState
deriving DecidableEq, Repr

/-- The variant of an extension: node, mark or plain
(`isNodeExtension` / `isMarkExtension` / `isPlainExtension`). -/
inductive ExtensionKind where
  | node
  | mark
  | plain
deriving DecidableEq, Repr

/-- A resolved extension as `setupLifecycleHandlers` consumes it: its unique
name, its variant, and which of the four optional lifecycle hooks it
defines. Handler invocations are identified in the trace by the owning
extension's name. -/
structure Extension where
  name : String
  kind : ExtensionKind
  hasOnCreate : Bool
  hasOnView : Bool
  hasOnStateUpdate : Bool
  hasOnDestroy : Bool
deriving DecidableEq, Repr

/-- The manager's `#handlers` record: the bound lifecycle callbacks
collected from the extensions, in extension order. -/
structure LifecycleHandlers where
  create : List String
  view : List String
  update : List String
  destroy : List String
deriving DecidableEq, Repr

/-- The extension store (`Remirror.ExtensionStore`), restricted to the
members the embedded operations write: the current/previous state
snapshots, the three name lists, and the custom entries written through
`setExtensionStore`, kept as an association list with the most recent
write first. -/
structure ExtensionStore where
  currentState : Option EditorState
  previousState : Option EditorState
  nodeNames : List String
  markNames : List String
  plainNames : List String
  custom : List (String × Nat)
deriving DecidableEq, Repr

/-- Read a custom key of the extension store. -/
def ExtensionStore.lookup (store : ExtensionStore) (key : String) : Option Nat :=
  (store.custom.find? fun entry => entry.1 == key).map fun entry => entry.2

/-- The observable effects of the manager: lifecycle handler invocations
(identified by extension name), event emissions to external subscribers,
plugin-state disposal and view teardown. -/
inductive Event where
  | createHandler (name : String)
  | viewHandler (name : String) (view : EditorView)
  | updateHandler (name : String) (firstUpdate : Bool)
      (state : EditorState) (previousState : EditorState)
  | emitStateUpdate (firstUpdate : Bool)
      (state : EditorState) (previousState : EditorState)
  | pluginStateDestroy (pluginId : Nat)
  | destroyHandler (name : String)
  | viewDestroyed
  | emitDestroy
deriving DecidableEq, Repr

/-- The value passed as `settings.privacy`: the module-private
`privacySymbol` (from `src/.../privacy.ts`, supplied only by the static
factory methods), some other symbol, or nothing. -/
inductive PrivacyValue where
  | privacySym
  | otherSymbol (n : Nat)
deriving DecidableEq, Repr

/-- The manager instance: its private fields (`#phase`,
`#firstStateUpdate`, `#extensions`, `#handlers`, `#extensionStore`) and the
members of the manager store the embedded operations touch (`#store.view`,
plus the resolved `schema` and `plugins` entries consumed by
`createState`). -/
structure RemirrorManager where
  phase : ManagerPhase
  firstStateUpdate : Bool
  extensions : List Extension
  handlers : LifecycleHandlers
  extensionStore : ExtensionStore
  storeView : Option EditorView
  storeSchema : EditorSchema
  storePlugins : List Plugin

/-- `setupLifecycleHandlers()` (source lines 320–369): walk the resolved
extensions once, collecting each defined lifecycle hook (bound to its
extension) into the handlers record in extension order, and record the
node/mark/plain extension names in the extension store. -/
def setupLifecycleHandlers (extensions : List Extension)
    (store : ExtensionStore) : LifecycleHandlers × ExtensionStore :=
  let handlers : LifecycleHandlers :=
    { create := ((extensions.filter fun e => e.hasOnCreate).map fun e => e.name)
      view := ((extensions.filter fun e => e.hasOnView).map fun e => e.name)
      update := ((extensions.filter fun e => e.hasOnStateUpdate).map fun e => e.name)
      destroy := ((extensions.filter fun e => e.hasOnDestroy).map fun e => e.name) }
  let store :=
    { store with
      nodeNames := (extensions.filter fun e => e.kind == .node).map fun e => e.name
      markNames := (extensions.filter fun e => e.kind == .mark).map fun e => e.name
      plainNames := (extensions.filter fun e => e.kind == .plain).map fun e => e.name }
  (handlers, store)

/-- The empty extension store a fresh manager starts from
(`createExtensionStore`, with the lazily computed members omitted). -/
def ExtensionStore.initial : ExtensionStore :=
  { currentState := Option.none
    previousState := Option.none
    nodeNames := []
    markNames := []
    plainNames := []
    custom := [] }

/-- The private constructor (source lines 284–315). The first action after
storing the arguments is the `invariant(privacy === privacySymbol)` check,
which throws `ErrorConstant.NEW_EDITOR_MANAGER` before any resolution work;
only then are the combined units resolved and the lifecycle handlers set
up, the phase moved to `Create`, and the `onCreate` handlers fired.
`transformCombinedUnion` lives in `remirror-manager-helpers.ts`, which is
not in the source tree: its output — the resolved, priority-sorted
extension list — is taken here as the `extensions` argument, and the
`schema`/`plugins` store entries contributed by the builtin preset during
creation are taken as arguments likewise. -/
def RemirrorManager.construct (extensions : List Extension)
    (schema : EditorSchema) (plugins : List Plugin)
    (privacy : Option PrivacyValue) :
    Except JsError (RemirrorManager × List Event) :=
  if privacy = some PrivacyValue.privacySym then
    let (handlers, store) := setupLifecycleHandlers extensions ExtensionStore.initial
    let m : RemirrorManager :=
      { phase := ManagerPhase.create
        firstStateUpdate := true
        extensions := extensions
        handlers := handlers
        extensionStore := store
        storeView := Option.none
        storeSchema := schema
        storePlugins := plugins }
    .ok (m, handlers.create.map Event.createHandler)
  else
    .error .newEditorManager

/-- The static factory `RemirrorManager.create` (source lines 97–108): it
invokes the private constructor with `privacy: privacySymbol`. The appended
`BuiltinPreset` and the settings are part of the resolution step abstracted
in `construct`. -/
def RemirrorManager.createManager (extensions : List Extension)
    (schema : EditorSchema) (plugins : List Plugin) :
    Except JsError (RemirrorManager × List Event) :=
  RemirrorManager.construct extensions schema plugins (some PrivacyValue.privacySym)

/-- `setExtensionStore(key, value)` (source lines 399–410): an `invariant`
requires `phase <= ManagerPhase.Create`, throwing
`ErrorConstant.MANAGER_PHASE_ERROR` otherwise; on success the key is
written into the extension store. -/
def RemirrorManager.setExtensionStore (m : RemirrorManager) (key : String)
    (value : Nat) : Except JsError RemirrorManager :=
  if m.phase.toNat ≤ ManagerPhase.create.toNat then
    .ok { m with
          extensionStore :=
            { m.extensionStore with custom := (key, value) :: m.extensionStore.custom } }
  else
    .error .managerPhaseError

/-- `getState()` (source lines 467–475): an `invariant` requires
`phase >= ManagerPhase.EditorView`, throwing
`ErrorConstant.MANAGER_PHASE_ERROR` otherwise; then `this.view.state` is
returned — reading `state` from an absent view is the runtime
`TypeError`. -/
def RemirrorManager.getState (m : RemirrorManager) : Except JsError EditorState :=
  if ManagerPhase.editorView.toNat ≤ m.phase.toNat then
    match m.storeView with
    | some v => .ok v.state
    | Option.none => .error .typeError
  else
    .error .managerPhaseError

/-- `addView(view)` (source lines 482–505): when `phase >= EditorView`
nothing happens; otherwise `#firstStateUpdate` is reset to `true`, the
phase becomes `EditorView`, the view is stored, and every `onView` handler
fires in order with the view. -/
def RemirrorManager.addView (m : RemirrorManager) (view : EditorView) :
    RemirrorManager × List Event :=
  if ManagerPhase.editorView.toNat ≤ m.phase.toNat then
    (m, [])
  else
    let m :=
      { m with
        firstStateUpdate := true
        phase := ManagerPhase.editorView
        storeView := some view }
    (m, m.handlers.view.map fun name => Event.viewHandler name view)

/-- `onStateUpdate(parameter)` (source lines 566–584): read
`#firstStateUpdate` into `firstUpdate`, write the current and previous
state snapshots into the extension store, on the first update move the
phase to `Runtime` and clear `#firstStateUpdate`, then fire every
`onStateUpdate` handler in order with `{ ...parameter, firstUpdate }` and
emit the `stateUpdate` event. -/
def RemirrorManager.onStateUpdate (m : RemirrorManager)
    (previousState state : EditorState) : RemirrorManager × List Event :=
  let firstUpdate := m.firstStateUpdate
  let m :=
    { m with
      extensionStore :=
        { m.extensionStore with
          currentState := some state
          previousState := some previousState } }
  let m :=
    if firstUpdate then
      { m with phase := ManagerPhase.runtime, firstStateUpdate := false }
    else m
  (m, (m.handlers.update.map fun name =>
        Event.updateHandler name firstUpdate state previousState)
      ++ [Event.emitStateUpdate firstUpdate state previousState])

/-- `updateState(state)` (source lines 553–558): read the previous state
via `getState` (which can throw), replace the view's state, and run
`onStateUpdate`. -/
def RemirrorManager.updateState (m : RemirrorManager) (state : EditorState) :
    Except JsError (RemirrorManager × List Event) := do
  let previousState ← m.getState
  let m := { m with storeView := m.storeView.map fun (v : EditorView) => { v with state := state } }
  .ok (m.onStateUpdate previousState state)

/-- `destroy()` (source lines 659–674): set the phase to `Destroy`; for
each plugin of the view's state, dispose its per-state value when it has a
`destroy` method; fire every `onDestroy` handler; tear down the view when
one is present; emit the `destroy` event. The source has no guard against
repeated invocation. -/
def RemirrorManager.destroy (m : RemirrorManager) : RemirrorManager × List Event :=
  let m := { m with phase := ManagerPhase.destroy }
  let pluginEvents : List Event :=
    match m.storeView with
    | some v =>
        (v.state.plugins.filter fun p => p.hasDestroyableState).map fun p =>
          Event.pluginStateDestroy p.pluginId
    | Option.none => []
  let viewEvents : List Event :=
    match m.storeView with
    | some _ => [Event.viewDestroyed]
    | Option.none => []
  (m, pluginEvents
      ++ m.handlers.destroy.map Event.destroyHandler
      ++ viewEvents
      ++ [Event.emitDestroy])

/-- The parameter of `createState` (source line 512):
`Omit<CreateDocumentNodeParameter, 'schema'>`. -/
structure CreateStateParameter where
  content : RemirrorContentType
  doc : Option Nat
  stringHandler : Option (Option Nat → String → EditorSchema → PMNode)
  onError : Option OnError
  selection : Option PrimitiveSelection

/-- `createState(parameter)` (source lines 512–538): build the document via
`createDocumentNode` with the store's schema, create the editor state from
it with the store's plugins, and, when a selection was supplied, apply a
transaction setting the resolved text selection. -/
def RemirrorManager.createState (m : RemirrorManager) (p : CreateStateParameter) :
    Except JsError EditorState := do
  let schema := m.storeSchema
  let plugins := m.storePlugins
  let doc ← createDocumentNode
    { content := p.content
      schema := schema
      doc := p.doc
      stringHandler := p.stringHandler
      onError := p.onError }
  let state := EditorState.create schema doc plugins
  match p.selection with
  | Option.none => .ok state
  | some selection => do
      let ts ← getTextSelection selection state.doc
      .ok (state.applySetSelection ts)

/-- Deliver a sequence of `(previousState, state)` updates to the manager
through `onStateUpdate`, concatenating the traces. -/
def RemirrorManager.runUpdates (m : RemirrorManager)
    (updates : List (EditorState × EditorState)) : RemirrorManager × List Event :=
  match updates with
  | [] => (m, [])
  | (prev, st) :: rest =>
      let step := m.onStateUpdate prev st
      let remaining := step.1.runUpdates rest
      (remaining.1, step.2 ++ remaining.2)

/-! ## Specification-side descriptions and concrete fixtures -/

/-- The events one state update is specified to produce: every registered
`onStateUpdate` handler in order, each receiving the `firstUpdate` flag and
the two states, followed by the `stateUpdate` emission to external
subscribers. -/
def specUpdateEvents (handlerNames : List String) (firstUpdate : Bool)
    (previousState state : EditorState) : List Event :=
  (handlerNames.map fun name =>
    Event.updateHandler name firstUpdate state previousState)
    ++ [Event.emitStateUpdate firstUpdate state previousState]

/-- The trace the specification prescribes for a whole sequence of state
updates: the first update carries the given flag, every later update
carries `firstUpdate = false`. -/
def specUpdateTrace (handlerNames : List String) (firstUpdate : Bool) :
    List (EditorState × EditorState) → List Event
  | [] => []
  | (prev, st) :: rest =>
      specUpdateEvents handlerNames firstUpdate prev st
        ++ specUpdateTrace handlerNames false rest

/-- Whether an event is the invocation of the `onStateUpdate` handler of the
named extension. -/
def Event.isUpdateHandlerFor (name : String) : Event → Bool
  | .updateHandler n _ _ _ => n == name
  | _ => false

/-- Whether a primitive selection is in one of the three position shapes
(number, "start"/"end" string, or from/to pair), rather than an existing
selection object. -/
def PrimitiveSelection.isPositionShape : PrimitiveSelection → Bool
  | .existing _ => false
  | _ => true

/-- A concrete schema for the closed instances below: the document requires
block content; the schema parses the two built-in fallback JSON documents
to the nodes 100 and 101 and rejects everything else. -/
def sampleSchema : EditorSchema :=
  { docContentSpec := some "block+"
    nodeFromJSON := fun j =>
      if j = EMPTY_PARAGRAPH_NODE then .ok ⟨100, 2⟩
      else if j = EMPTY_NODE then .ok ⟨101, 0⟩
      else .error (.schemaParse "invalid") }

/-- Two concrete extensions: extension "a" defines all four lifecycle
hooks, extension "b" defines `onView` and `onStateUpdate` only. -/
def sampleExtensions : List Extension :=
  [ { name := "a", kind := .plain, hasOnCreate := true, hasOnView := true
      hasOnStateUpdate := true, hasOnDestroy := true }
  , { name := "b", kind := .node, hasOnCreate := false, hasOnView := true
      hasOnStateUpdate := true, hasOnDestroy := false } ]

/-- A concrete editor state with document node `i`. -/
def sampleState (i : Nat) : EditorState :=
  { doc := ⟨i, 4⟩
    selection := Option.none
    plugins := [⟨0, true⟩, ⟨1, false⟩] }

/-- A concrete view holding `sampleState 0`. -/
def sampleView : EditorView :=
  ⟨sampleState 0⟩

/-- A freshly constructed manager over the sample extensions, as the
constructor leaves it (phase `Create`). -/
def mgrCreate : RemirrorManager :=
  { phase := ManagerPhase.create
    firstStateUpdate := true
    extensions := sampleExtensions
    handlers := (setupLifecycleHandlers sampleExtensions ExtensionStore.initial).1
    extensionStore := (setupLifecycleHandlers sampleExtensions ExtensionStore.initial).2
    storeView := Option.none
    storeSchema := sampleSchema
    storePlugins := [⟨0, true⟩] }

/-- The sample manager after `addView sampleView` (phase `EditorView`). -/
def mgrWithView : RemirrorManager :=
  (mgrCreate.addView sampleView).1

/-! ## Helper lemmas -/

/-- `clamp` lands in the interval when the interval is nonempty. -/
theorem clamp_mem_interval (min max value : Int) (h : min ≤ max) :
    min ≤ clamp min max value ∧ clamp min max value ≤ max := by
  unfold clamp
  split_ifs <;> omega

/-- For the document node, `nodeSize - 2` is the content size. -/
theorem nodeSize_sub_two (doc : PMNode) :
    (doc.nodeSize : Int) - 2 = (doc.contentSize : Int) := by
  unfold PMNode.nodeSize
  push_cast
  omega

/-- Resolving a position already clamped into the document range always
succeeds. -/
theorem resolve_clamp_ok (doc : PMNode) (value : Int) :
    doc.resolve (clamp 0 (doc.contentSize : Int) value) =
      Except.ok ⟨clamp 0 (doc.contentSize : Int) value⟩ := by
  have h := clamp_mem_interval 0 (doc.contentSize : Int) value (Int.natCast_nonneg _)
  unfold PMNode.resolve
  rw [if_pos h]

/-- `getTextSelection` never throws: every primitive selection resolves to
some text selection. -/
theorem getTextSelection_total (sel : PrimitiveSelection) (doc : PMNode) :
    ∃ ts, getTextSelection sel doc = Except.ok ts := by
  have hms := nodeSize_sub_two doc
  cases sel with
  | existing s => exact ⟨s, rfl⟩
  | docStart =>
      refine ⟨TextSelection.near ⟨clamp 0 (doc.contentSize : Int) 0⟩, ?_⟩
      show TextSelection.near <$> doc.resolve (clamp 0 ((doc.nodeSize : Int) - 2) 0)
        = Except.ok _
      rw [hms, resolve_clamp_ok]
      rfl
  | docEnd =>
      refine ⟨TextSelection.near ⟨clamp 0 (doc.contentSize : Int) (doc.contentSize : Int)⟩, ?_⟩
      show TextSelection.near <$>
          doc.resolve (clamp 0 ((doc.nodeSize : Int) - 2) ((doc.nodeSize : Int) - 2))
        = Except.ok _
      rw [hms, resolve_clamp_ok]
      rfl
  | pos n =>
      refine ⟨TextSelection.near ⟨clamp 0 (doc.contentSize : Int) n⟩, ?_⟩
      show TextSelection.near <$> doc.resolve (clamp 0 ((doc.nodeSize : Int) - 2) n)
        = Except.ok _
      rw [hms, resolve_clamp_ok]
      rfl
  | fromTo f t =>
      refine ⟨⟨clamp 0 (doc.contentSize : Int) f, clamp 0 (doc.contentSize : Int) t⟩, ?_⟩
      show TextSelection.create doc (clamp 0 ((doc.nodeSize : Int) - 2) f)
          (clamp 0 ((doc.nodeSize : Int) - 2) t) = Except.ok _
      unfold TextSelection.create
      rw [hms, resolve_clamp_ok, resolve_clamp_ok]
      rfl

/-- The components of one `onStateUpdate` step: handlers unchanged, the
first-update flag cleared, the produced events, the snapshots written, and
the phase transition. -/
theorem onStateUpdate_components (m : RemirrorManager) (prev st : EditorState) :
    (m.onStateUpdate prev st).1.handlers = m.handlers ∧
    (m.onStateUpdate prev st).1.firstStateUpdate = false ∧
    (m.onStateUpdate prev st).2 = specUpdateEvents m.handlers.update m.firstStateUpdate prev st ∧
    (m.onStateUpdate prev st).1.extensionStore.currentState = some st ∧
    (m.onStateUpdate prev st).1.extensionStore.previousState = some prev ∧
    (m.onStateUpdate prev st).1.phase
      = (if m.firstStateUpdate then ManagerPhase.runtime else m.phase) := by
  cases h : m.firstStateUpdate <;>
    simp [RemirrorManager.onStateUpdate, specUpdateEvents, h]

/-- The trace of a run of updates is the specified trace, starting from the
current first-update flag. -/
theorem runUpdates_trace (us : List (EditorState × EditorState)) :
    ∀ m : RemirrorManager,
      (m.runUpdates us).2 = specUpdateTrace m.handlers.update m.firstStateUpdate us := by
  induction us with
  | nil => intro m; rfl
  | cons u rest ih =>
      intro m
      obtain ⟨p, s⟩ := u
      have hc := onStateUpdate_components m p s
      have hstep : (m.runUpdates ((p, s) :: rest)).2
          = (m.onStateUpdate p s).2 ++ ((m.onStateUpdate p s).1.runUpdates rest).2 := rfl
      rw [hstep, ih, hc.1, hc.2.1, hc.2.2.1]
      simp [specUpdateTrace]

/-- Updates delivered when the first-update flag is already cleared leave
the phase alone (and the flag stays cleared). -/
theorem runUpdates_phase_stable (us : List (EditorState × EditorState)) :
    ∀ m : RemirrorManager, m.firstStateUpdate = false →
      (m.runUpdates us).1.phase = m.phase ∧ (m.runUpdates us).1.firstStateUpdate = false := by
  induction us with
  | nil => intro m h; exact ⟨rfl, h⟩
  | cons u rest ih =>
      intro m h
      obtain ⟨p, s⟩ := u
      have hc := onStateUpdate_components m p s
      have hphase : (m.onStateUpdate p s).1.phase = m.phase := by
        rw [hc.2.2.2.2.2, h]
        simp
      have hrec := ih (m.onStateUpdate p s).1 hc.2.1
      have hstep : (m.runUpdates ((p, s) :: rest)).1
          = ((m.onStateUpdate p s).1.runUpdates rest).1 := rfl
      rw [hstep]
      exact ⟨hrec.1.trans hphase, hrec.2⟩

/-- After the run, the extension store holds the snapshots of the last
update delivered. -/
theorem runUpdates_last_snapshot (us : List (EditorState × EditorState)) (p s : EditorState) :
    ∀ m : RemirrorManager,
      (m.runUpdates (us ++ [(p, s)])).1.extensionStore.currentState = some s ∧
      (m.runUpdates (us ++ [(p, s)])).1.extensionStore.previousState = some p := by
  induction us with
  | nil =>
      intro m
      have hc := onStateUpdate_components m p s
      exact ⟨hc.2.2.2.1, hc.2.2.2.2.1⟩
  | cons u rest ih =>
      intro m
      obtain ⟨a, b⟩ := u
      exact ih (m.onStateUpdate a b).1

/-- Counting one handler's invocations in the specified trace: once per
update per registration. -/
theorem specUpdateTrace_count (handlerNames : List String) (name : String) :
    ∀ (us : List (EditorState × EditorState)) (b : Bool),
      ((specUpdateTrace handlerNames b us).countP (Event.isUpdateHandlerFor name))
        = us.length * handlerNames.count name := by
  intro us
  induction us with
  | nil => intro b; simp [specUpdateTrace]
  | cons u rest ih =>
      intro b
      obtain ⟨p, s⟩ := u
      have hev : ((specUpdateEvents handlerNames b p s).countP (Event.isUpdateHandlerFor name))
          = handlerNames.count name := by
        unfold specUpdateEvents
        rw [List.countP_append, List.countP_map]
        simp [Event.isUpdateHandlerFor, List.count]
        rfl
      unfold specUpdateTrace
      rw [List.countP_append, hev, ih false, List.length_cons, Nat.succ_mul]
      omega

/-! ## Claim theorems -/

/-- C1 (counterexample): the claim that a second `destroy()` does not
re-invoke any `onDestroy` handler and does not tear down the view again is
false at a concrete manager: after destroying `mgrWithView` once, calling
`destroy` again re-invokes the `onDestroy` handler of extension "a" and
re-emits the view teardown. -/
theorem destroy_second_call_reinvokes_cex :
    Event.destroyHandler "a" ∈ ((mgrWithView.destroy).1.destroy).2 ∧
    Event.viewDestroyed ∈ ((mgrWithView.destroy).1.destroy).2 := by
  decide

/-- C1 (amended): a second call to `destroy()` does not throw (`destroy` is
total), but it is unguarded: it returns the same manager and repeats the
first call's entire effect trace — plugin-state disposal, every `onDestroy`
handler, view teardown and the `destroy` emission. -/
theorem destroy_second_call_repeats (m : RemirrorManager) :
    ((m.destroy).1).destroy = m.destroy := rfl

/-- C2 (code bug): with unrecognized content and a caller-supplied fallback
node `⟨7, 3⟩`, `createDocumentNode` does not return the supplied fallback:
because `parameter.onError ?? cond ? A : B` parses as
`(parameter.onError ?? cond) ? A : B`, the supplied handler is discarded
and the result is the schema's parse of `EMPTY_PARAGRAPH_NODE`
(node `⟨100, 2⟩` under `sampleSchema`), contradicting the documented
meaning of the `onError` parameter. -/
theorem createDocumentNode_ignores_supplied_fallback :
    createDocumentNode
      { content := RemirrorContentType.other 0
        schema := sampleSchema
        doc := Option.none
        stringHandler := Option.none
        onError := some (OnError.fallback (Fallback.node ⟨7, 3⟩)) } = Except.ok ⟨100, 2⟩ ∧
    sampleSchema.nodeFromJSON EMPTY_PARAGRAPH_NODE = Except.ok ⟨100, 2⟩ ∧
    ((⟨100, 2⟩ : PMNode) ≠ ⟨7, 3⟩) := by
  refine ⟨rfl, rfl, by decide⟩

/-- C3: while the phase is at most `Create`, `setExtensionStore` succeeds
and the key is readable from the resulting extension store; at any later
phase (in particular `EditorView`, the phase during `onView`), it throws
the phase-violation error and no updated manager is produced, so the store
is left unchanged. -/
theorem setExtensionStore_phase_gate (m : RemirrorManager) (key : String) (value : Nat) :
    (m.phase.toNat ≤ ManagerPhase.create.toNat →
      ∃ m2, m.setExtensionStore key value = Except.ok m2 ∧
        m2.extensionStore.lookup key = some value ∧
        m2.phase = m.phase ∧ m2.storeView = m.storeView) ∧
    (ManagerPhase.create.toNat < m.phase.toNat →
      m.setExtensionStore key value = Except.error JsError.managerPhaseError) := by
  constructor
  · intro h
    refine ⟨{ m with
        extensionStore :=
          { m.extensionStore with custom := (key, value) :: m.extensionStore.custom } },
      ?_, ?_, rfl, rfl⟩
    · unfold RemirrorManager.setExtensionStore
      rw [if_pos h]
    · simp [ExtensionStore.lookup]
  · intro h
    unfold RemirrorManager.setExtensionStore
    rw [if_neg (by omega)]

/-- C3 witness: at phase `Create` the write succeeds and the key reads
back; at phase `EditorView` (inside `onView`) the call throws. -/
theorem setExtensionStore_phase_gate_witness :
    (∃ m2, mgrCreate.setExtensionStore "k" 5 = Except.ok m2 ∧
      m2.extensionStore.lookup "k" = some 5 ∧
      m2.phase = mgrCreate.phase ∧ m2.storeView = mgrCreate.storeView) ∧
    mgrWithView.setExtensionStore "k" 5 = Except.error JsError.managerPhaseError :=
  ⟨(setExtensionStore_phase_gate mgrCreate "k" 5).1 (by decide),
   (setExtensionStore_phase_gate mgrWithView "k" 5).2 (by decide)⟩

/-- C4: `getState()` throws the phase-violation error whenever the phase is
below `EditorView`; once a view is attached (the phase is at least
`EditorView` and the store holds the view), it returns exactly that view's
current state. -/
theorem getState_phase_gate (m : RemirrorManager) (v : EditorView) :
    (m.phase.toNat < ManagerPhase.editorView.toNat →
      m.getState = Except.error JsError.managerPhaseError) ∧
    (ManagerPhase.editorView.toNat ≤ m.phase.toNat → m.storeView = some v →
      m.getState = Except.ok v.state) := by
  constructor
  · intro h
    unfold RemirrorManager.getState
    rw [if_neg (by omega)]
  · intro h hv
    unfold RemirrorManager.getState
    rw [if_pos h, hv]

/-- C4 witness: before `addView` the call throws; after `addView` it
returns the attached view's state. -/
theorem getState_phase_gate_witness :
    mgrCreate.getState = Except.error JsError.managerPhaseError ∧
    mgrWithView.getState = Except.ok sampleView.state :=
  ⟨(getState_phase_gate mgrCreate sampleView).1 (by decide),
   (getState_phase_gate mgrWithView sampleView).2 (by decide) rfl⟩

/-- C5: the first `addView` (from a phase below `EditorView`) stores the
view, sets the phase to `EditorView` and fires every `onView` handler in
order with the view; a second call with any view is a no-op on that
result, and in general `addView` is a no-op on every manager whose phase
is already at least `EditorView`, so only the first view is ever stored
and the handlers fire exactly once. -/
theorem addView_idempotent (m : RemirrorManager) (v v2 : EditorView)
    (h : m.phase.toNat < ManagerPhase.editorView.toNat) :
    (m.addView v).1.storeView = some v ∧
    (m.addView v).1.phase = ManagerPhase.editorView ∧
    (m.addView v).2 = m.handlers.view.map (fun name => Event.viewHandler name v) ∧
    (m.addView v).1.addView v2 = ((m.addView v).1, []) ∧
    (∀ m2 : RemirrorManager, ManagerPhase.editorView.toNat ≤ m2.phase.toNat →
      m2.addView v2 = (m2, [])) := by
  have hno : ¬ ManagerPhase.editorView.toNat ≤ m.phase.toNat := by omega
  have hfirst :
      m.addView v =
        ({ m with
            firstStateUpdate := true
            phase := ManagerPhase.editorView
            storeView := some v },
         m.handlers.view.map fun name => Event.viewHandler name v) := by
    unfold RemirrorManager.addView
    rw [if_neg hno]
  have hnoop : ∀ m2 : RemirrorManager, ManagerPhase.editorView.toNat ≤ m2.phase.toNat →
      m2.addView v2 = (m2, []) := by
    intro m2 h2
    unfold RemirrorManager.addView
    rw [if_pos h2]
  refine ⟨?_, ?_, ?_, ?_, hnoop⟩
  · rw [hfirst]
  · rw [hfirst]
  · rw [hfirst]
  · rw [hfirst]
    exact hnoop _ (le_refl _)

/-- C5 witness: from the freshly created sample manager, `addView` stores
the sample view, moves to `EditorView`, fires the two `onView` handlers in
order, and a second `addView` with a different view changes nothing. -/
theorem addView_idempotent_witness :
    (mgrCreate.addView sampleView).1.storeView = some sampleView ∧
    (mgrCreate.addView sampleView).1.phase = ManagerPhase.editorView ∧
    (mgrCreate.addView sampleView).2
      = mgrCreate.handlers.view.map (fun name => Event.viewHandler name sampleView) ∧
    (mgrCreate.addView sampleView).1.addView ⟨sampleState 9⟩
      = ((mgrCreate.addView sampleView).1, []) :=
  ⟨(addView_idempotent mgrCreate sampleView ⟨sampleState 9⟩ (by decide)).1,
   (addView_idempotent mgrCreate sampleView ⟨sampleState 9⟩ (by decide)).2.1,
   (addView_idempotent mgrCreate sampleView ⟨sampleState 9⟩ (by decide)).2.2.1,
   (addView_idempotent mgrCreate sampleView ⟨sampleState 9⟩ (by decide)).2.2.2.1⟩

/-- C6: for any sequence of updates delivered after the view is attached
(phase `EditorView`, first-update flag set), the produced trace is exactly
the specified one — every registered `onStateUpdate` handler once per
update, in constant handler order, with `firstUpdate = true` on the first
update and `false` afterwards — so each handler runs `N` times for `N`
updates; the first update moves the phase to `Runtime`; and after a run
the extension store holds the current/previous snapshots of the last
update, the same values the handlers received. -/
theorem stateUpdate_handlers_exact (m : RemirrorManager)
    (us : List (EditorState × EditorState)) (prev st : EditorState) (name : String)
    (_hphase : m.phase = ManagerPhase.editorView)
    (hfirst : m.firstStateUpdate = true) :
    (m.runUpdates us).2 = specUpdateTrace m.handlers.update true us ∧
    ((m.runUpdates us).2.countP (Event.isUpdateHandlerFor name))
      = us.length * m.handlers.update.count name ∧
    (m.runUpdates ((prev, st) :: us)).1.phase = ManagerPhase.runtime ∧
    (m.runUpdates (us ++ [(prev, st)])).1.extensionStore.currentState = some st ∧
    (m.runUpdates (us ++ [(prev, st)])).1.extensionStore.previousState = some prev := by
  have ht := runUpdates_trace us m
  rw [hfirst] at ht
  have hcount : ((m.runUpdates us).2.countP (Event.isUpdateHandlerFor name))
      = us.length * m.handlers.update.count name := by
    rw [ht, specUpdateTrace_count]
  have hc := onStateUpdate_components m prev st
  have hp : (m.onStateUpdate prev st).1.phase = ManagerPhase.runtime := by
    rw [hc.2.2.2.2.2, hfirst]
    simp
  have hstable := runUpdates_phase_stable us (m.onStateUpdate prev st).1 hc.2.1
  have hphase2 : (m.runUpdates ((prev, st) :: us)).1.phase = ManagerPhase.runtime := by
    have hstep : (m.runUpdates ((prev, st) :: us)).1
        = ((m.onStateUpdate prev st).1.runUpdates us).1 := rfl
    rw [hstep, hstable.1, hp]
  exact ⟨ht, hcount, hphase2,
    (runUpdates_last_snapshot us prev st m).1,
    (runUpdates_last_snapshot us prev st m).2⟩

/-- C6 witness: with the sample manager holding two `onStateUpdate`
handlers, one update produces the specified trace and a nonempty run ends
at phase `Runtime`. -/
theorem stateUpdate_handlers_exact_witness :
    mgrWithView.firstStateUpdate = true ∧
    (mgrWithView.runUpdates [(sampleState 0, sampleState 1)]).2
      = specUpdateTrace mgrWithView.handlers.update true [(sampleState 0, sampleState 1)] ∧
    (mgrWithView.runUpdates
        ((sampleState 1, sampleState 2) :: [(sampleState 0, sampleState 1)])).1.phase
      = ManagerPhase.runtime :=
  ⟨rfl,
   (stateUpdate_handlers_exact mgrWithView [(sampleState 0, sampleState 1)]
      (sampleState 1) (sampleState 2) "a" rfl rfl).1,
   (stateUpdate_handlers_exact mgrWithView [(sampleState 0, sampleState 1)]
      (sampleState 1) (sampleState 2) "a" rfl rfl).2.2.1⟩

/-- C7: invoking the constructor with any privacy value other than the
module-private symbol throws the construction error before any resolution
work, and the static factory is exactly the constructor applied with the
symbol — so the factory is the only way to obtain a manager. -/
theorem construct_requires_privacy_symbol (extensions : List Extension)
    (schema : EditorSchema) (plugins : List Plugin) (privacy : Option PrivacyValue)
    (h : privacy ≠ some PrivacyValue.privacySym) :
    RemirrorManager.construct extensions schema plugins privacy
      = Except.error JsError.newEditorManager ∧
    RemirrorManager.createManager extensions schema plugins
      = RemirrorManager.construct extensions schema plugins
          (some PrivacyValue.privacySym) := by
  refine ⟨?_, rfl⟩
  unfold RemirrorManager.construct
  rw [if_neg h]

/-- C7 witness: constructing without any privacy value throws the
construction error. -/
theorem construct_requires_privacy_symbol_witness :
    RemirrorManager.construct sampleExtensions sampleSchema [] Option.none
      = Except.error JsError.newEditorManager :=
  (construct_requires_privacy_symbol sampleExtensions sampleSchema []
    Option.none (by decide)).1

/-- C8: when the content handed to `createState` is already a document
node of the schema, the resulting state's document is that node unchanged
(also when an initial selection is applied). -/
theorem createState_document_roundtrip (m : RemirrorManager)
    (p : CreateStateParameter) (n : PMNode)
    (h : p.content = RemirrorContentType.node n) :
    ∃ st, m.createState p = Except.ok st ∧ st.doc = n := by
  have hstep : m.createState p
      = (createDocumentNode
          { content := p.content
            schema := m.storeSchema
            doc := p.doc
            stringHandler := p.stringHandler
            onError := p.onError }) >>= (fun doc =>
          match p.selection with
          | Option.none => Except.ok (EditorState.create m.storeSchema doc m.storePlugins)
          | some selection =>
              (getTextSelection selection
                  (EditorState.create m.storeSchema doc m.storePlugins).doc) >>= (fun ts =>
                Except.ok
                  ((EditorState.create m.storeSchema doc m.storePlugins).applySetSelection ts))) :=
    rfl
  have hdoc : createDocumentNode
      { content := p.content
        schema := m.storeSchema
        doc := p.doc
        stringHandler := p.stringHandler
        onError := p.onError } = Except.ok n := by
    rw [h]
    rfl
  rw [hstep, hdoc]
  cases hsel : p.selection with
  | none => exact ⟨_, rfl, rfl⟩
  | some sel =>
      obtain ⟨ts, hts⟩ :=
        getTextSelection_total sel ((EditorState.create m.storeSchema n m.storePlugins).doc)
      refine ⟨(EditorState.create m.storeSchema n m.storePlugins).applySetSelection ts, ?_, rfl⟩
      show (getTextSelection sel ((EditorState.create m.storeSchema n m.storePlugins).doc))
          >>= (fun ts2 =>
            Except.ok ((EditorState.create m.storeSchema n m.storePlugins).applySetSelection ts2))
        = Except.ok ((EditorState.create m.storeSchema n m.storePlugins).applySetSelection ts)
      rw [hts]
      rfl

/-- C8 witness: a document node `⟨5, 3⟩` supplied as content, with an
out-of-range initial selection, comes back unchanged as the state's
document. -/
theorem createState_document_roundtrip_witness :
    ∃ st, mgrCreate.createState
        { content := RemirrorContentType.node ⟨5, 3⟩
          doc := Option.none
          stringHandler := Option.none
          onError := Option.none
          selection := some (PrimitiveSelection.fromTo (-1) 99) } = Except.ok st ∧
      st.doc = (⟨5, 3⟩ : PMNode) :=
  createState_document_roundtrip mgrCreate _ ⟨5, 3⟩ rfl

/-- C9 (code bug evaluation): the phase is not monotonic. After
`create → addView → destroy` the phase is `Destroy`; a state update
delivered then (the guard is a TODO in the source) finds the first-update
flag still set and moves the phase back to `Runtime`, a strictly smaller
phase. -/
theorem phase_decreases_after_destroy :
    (mgrWithView.destroy).1.phase = ManagerPhase.destroy ∧
    ((mgrWithView.destroy).1.onStateUpdate (sampleState 1) (sampleState 2)).1.phase
      = ManagerPhase.runtime ∧
    ManagerPhase.runtime.toNat < ManagerPhase.destroy.toNat := by
  refine ⟨rfl, rfl, by decide⟩

/-- C10: for every document and every primitive selection in one of the
position shapes (number, "start"/"end", from/to pair), `getTextSelection`
returns (never throws) a text selection whose anchor and head both lie
within the document range `[0, nodeSize - 2]`, because each position is
clamped into that range before being resolved. -/
theorem getTextSelection_clamps_into_document (sel : PrimitiveSelection) (doc : PMNode)
    (h : sel.isPositionShape = true) :
    ∃ ts, getTextSelection sel doc = Except.ok ts ∧
      0 ≤ ts.anchor ∧ ts.anchor ≤ (doc.nodeSize : Int) - 2 ∧
      0 ≤ ts.head ∧ ts.head ≤ (doc.nodeSize : Int) - 2 := by
  have hms := nodeSize_sub_two doc
  have hmem : ∀ v : Int, 0 ≤ clamp 0 (doc.contentSize : Int) v ∧
      clamp 0 (doc.contentSize : Int) v ≤ (doc.contentSize : Int) :=
    fun v => clamp_mem_interval 0 (doc.contentSize : Int) v (Int.natCast_nonneg _)
  cases sel with
  | existing s => simp [PrimitiveSelection.isPositionShape] at h
  | docStart =>
      refine ⟨TextSelection.near ⟨clamp 0 (doc.contentSize : Int) 0⟩, ?_, ?_, ?_, ?_, ?_⟩
      · show TextSelection.near <$> doc.resolve (clamp 0 ((doc.nodeSize : Int) - 2) 0)
          = Except.ok _
        rw [hms, resolve_clamp_ok]
        rfl
      · exact (hmem 0).1
      · rw [hms]; exact (hmem 0).2
      · exact (hmem 0).1
      · rw [hms]; exact (hmem 0).2
  | docEnd =>
      refine ⟨TextSelection.near ⟨clamp 0 (doc.contentSize : Int) (doc.contentSize : Int)⟩,
        ?_, ?_, ?_, ?_, ?_⟩
      · show TextSelection.near <$>
            doc.resolve (clamp 0 ((doc.nodeSize : Int) - 2) ((doc.nodeSize : Int) - 2))
          = Except.ok _
        rw [hms, resolve_clamp_ok]
        rfl
      · exact (hmem (doc.contentSize : Int)).1
      · rw [hms]; exact (hmem (doc.contentSize : Int)).2
      · exact (hmem (doc.contentSize : Int)).1
      · rw [hms]; exact (hmem (doc.contentSize : Int)).2
  | pos n =>
      refine ⟨TextSelection.near ⟨clamp 0 (doc.contentSize : Int) n⟩, ?_, ?_, ?_, ?_, ?_⟩
      · show TextSelection.near <$> doc.resolve (clamp 0 ((doc.nodeSize : Int) - 2) n)
          = Except.ok _
        rw [hms, resolve_clamp_ok]
        rfl
      · exact (hmem n).1
      · rw [hms]; exact (hmem n).2
      · exact (hmem n).1
      · rw [hms]; exact (hmem n).2
  | fromTo f t =>
      refine ⟨⟨clamp 0 (doc.contentSize : Int) f, clamp 0 (doc.contentSize : Int) t⟩,
        ?_, ?_, ?_, ?_, ?_⟩
      · show TextSelection.create doc (clamp 0 ((doc.nodeSize : Int) - 2) f)
            (clamp 0 ((doc.nodeSize : Int) - 2) t) = Except.ok _
        unfold TextSelection.create
        rw [hms, resolve_clamp_ok, resolve_clamp_ok]
        rfl
      · exact (hmem f).1
      · rw [hms]; exact (hmem f).2
      · exact (hmem t).1
      · rw [hms]; exact (hmem t).2

/-- C10 witness: a numeric position far outside a five-token document is
clamped and resolved without error. -/
theorem getTextSelection_clamps_witness :
    ∃ ts, getTextSelection (PrimitiveSelection.pos 100) ⟨0, 5⟩ = Except.ok ts ∧
      0 ≤ ts.anchor ∧ ts.anchor ≤ (((⟨0, 5⟩ : PMNode).nodeSize : Int)) - 2 ∧
      0 ≤ ts.head ∧ ts.head ≤ (((⟨0, 5⟩ : PMNode).nodeSize : Int)) - 2 :=
  getTextSelection_clamps_into_document (PrimitiveSelection.pos 100) ⟨0, 5⟩ rfl
